import Mathlib


/-!
Verification development for the Stacks settlement core:
the miner-reward settlement engine (`chainstate/stacks/db/accounts.rs`)
and the VM-facing asset operations (`vm/functions/assets.rs`).

Addresses, principals, hashes and asset values are modelled as `Nat`;
`u128`/`u64` machine integers are modelled as `Nat`, with an explicit
`U128_MAX` bound where the source uses `checked_add` and the distinction
between a recoverable error and a process abort matters.
-/

/-- The u128 ceiling, used to model `checked_add` on `u128` values. -/
def U128_MAX : Nat := 2 ^ 128 - 1

/-- Checked u128 addition: `a.checked_add(b)` in the source; `none` models
the overflow case. Both operands are assumed to be valid u128 values. -/
def u128_checked_add (a b : Nat) : Option Nat :=
  if a + b ≤ U128_MAX then some (a + b) else none

/-- One scheduled reward row (`MinerPaymentSchedule` in `accounts.rs`).
Hash fields are modelled as opaque numbers. -/
structure MinerPaymentSchedule where
  address : Nat
  block_hash : Nat
  consensus_hash : Nat
  parent_block_hash : Nat
  parent_consensus_hash : Nat
  coinbase : Nat
  tx_fees_anchored : Nat
  tx_fees_streamed : Nat
  stx_burns : Nat
  burnchain_commit_burn : Nat
  burnchain_sortition_burn : Nat
  fill : Nat
  miner : Bool
  stacks_block_height : Nat
  vtxindex : Nat
deriving DecidableEq

/-- The resolved payout for one participant (`MinerReward` in `accounts.rs`). -/
structure MinerReward where
  address : Nat
  coinbase : Nat
  tx_fees_anchored : Nat
  tx_fees_streamed_produced : Nat
  tx_fees_streamed_confirmed : Nat
  vtxindex : Nat
deriving DecidableEq

/-- Provenance record for a resolved reward batch (`MinerRewardInfo`). -/
structure MinerRewardInfo where
  from_stacks_block_hash : Nat
  from_block_consensus_hash : Nat
deriving DecidableEq

/-- `MinerReward::total`: the sum of all four value fields. -/
def MinerReward.total (r : MinerReward) : Nat :=
  r.coinbase + r.tx_fees_anchored + r.tx_fees_streamed_produced +
    r.tx_fees_streamed_confirmed

/-- Models `StacksAddress::burn_address(mainnet)` (defined outside the
sampled sources): the canonical burn address for the given network, an
ordinary designated address value. -/
def burn_address (mainnet : Bool) : Nat :=
  if mainnet then 0 else 1

/-- The `total_user` accumulation in the miner branch of
`calculate_miner_reward`: the sum of the users' `burnchain_commit_burn`
fields (`checked_add` overflow on u128 is unreachable for u64 commits). -/
def sumUserBurns (users : List MinerPaymentSchedule) : Nat :=
  users.foldl (fun acc u => acc + u.burnchain_commit_burn) 0

/-- The user-branch loop of `calculate_miner_reward`: starting from
`acc = (this_user, total_other)`, each user whose address differs from the
participant is added to `total_other`, and a user whose address matches
overwrites `this_user` with its commit burn. -/
def userBurnSplit (paddr : Nat) (users : List MinerPaymentSchedule)
    (acc : Nat × Nat) : Nat × Nat :=
  users.foldl
    (fun acc u =>
      if u.address ≠ paddr then (acc.1, acc.2 + u.burnchain_commit_burn)
      else (u.burnchain_commit_burn, acc.2))
    acc

/-- `StacksChainState::poison_microblock_commission`:
`(coinbase * POISON_MICROBLOCK_COMMISSION_FRACTION) / 100`.  The constant
`POISON_MICROBLOCK_COMMISSION_FRACTION` is defined outside the sampled
sources, so it is threaded through as the parameter `frac`; every theorem
below holds for an arbitrary value of it. -/
def poison_microblock_commission (frac coinbase : Nat) : Nat :=
  coinbase * frac / 100

/-- `StacksChainState::calculate_miner_reward` from `accounts.rs`.
`frac` stands for the external constant
`POISON_MICROBLOCK_COMMISSION_FRACTION`.  The `checked_add`/`checked_mul`
calls in the source abort on u128 overflow; those aborts are unreachable
for u64 commit burns and are not modelled.  The u128 division by
`burn_total` panics in Rust when `burn_total = 0` (declared unreachable by
the source comment); `Nat` division returns 0 there, and the theorems that
depend on the quotient carry a positivity hypothesis. -/
def calculate_miner_reward (frac : Nat) (mainnet : Bool)
    (participant miner : MinerPaymentSchedule)
    (users : List MinerPaymentSchedule)
    (poison_reporter : Option Nat) : MinerReward :=
  let bt :=
    if participant.address = miner.address then
      (participant.burnchain_commit_burn, sumUserBurns users)
    else
      userBurnSplit participant.address users (0, miner.burnchain_commit_burn)
  let this_burn_total := bt.1
  let other_burn_total := bt.2
  let burn_total := other_burn_total + this_burn_total
  let coinbase_reward := participant.coinbase * this_burn_total / burn_total
  let rc :=
    match poison_reporter with
    | some reporter =>
      if participant.address = miner.address then
        (reporter, poison_microblock_commission frac coinbase_reward)
      else
        (burn_address mainnet, coinbase_reward)
    | none => (participant.address, coinbase_reward)
  { address := rc.1
    coinbase := rc.2
    tx_fees_anchored := 0
    tx_fees_streamed_produced := 0
    tx_fees_streamed_confirmed := 0
    vtxindex := miner.vtxindex }

/-- Result of `find_mature_miner_rewards`.  `ok` is the `Ok(..)` value of
the Rust `Result` (the only `Err` source is the external poison lookup,
which is modelled as an input here); `fatal` models the `assert!` panics on
a malformed matured-miners list. -/
inductive MatureRewardsResult where
  | ok (res : Option (MinerReward × List MinerReward × MinerRewardInfo))
  | fatal
deriving DecidableEq

/-- `StacksChainState::find_mature_miner_rewards` from `accounts.rs`.
`maturity` stands for the external constant `MINER_REWARD_MATURITY` and
`poison_reporter` for the result of the external poison-microblock lookup
at `tip_height - maturity`. -/
def find_mature_miner_rewards (maturity : Nat) (mainnet : Bool) (frac : Nat)
    (tip_height : Nat) (poison_reporter : Option Nat)
    (latest_matured_miners : List MinerPaymentSchedule) :
    MatureRewardsResult :=
  if tip_height ≤ maturity then .ok none
  else
    match latest_matured_miners with
    | [] => .fatal
    | miner :: users =>
      if miner.vtxindex = 0 ∧ miner.miner then
        let reward_info : MinerRewardInfo :=
          ⟨miner.block_hash, miner.consensus_hash⟩
        let miner_reward :=
          calculate_miner_reward frac mainnet miner miner users poison_reporter
        let user_rewards :=
          users.map fun u =>
            calculate_miner_reward frac mainnet u miner users poison_reporter
        .ok (some (miner_reward, user_rewards, reward_info))
      else .fatal

/-- The height guard of `StacksChainState::get_scheduled_block_rewards`:
below `MINER_REWARD_MATURITY` it returns no schedule height (the empty
result), otherwise it queries the fork at `tip_height - maturity`. -/
def get_scheduled_block_rewards_height (maturity tip_height : Nat) :
    Option Nat :=
  if tip_height < maturity then none else some (tip_height - maturity)

/-- The native-coin balance record (`StxBalance` / `STXBalance` from the
data model): unlocked amount, locked amount, and the lock's target height. -/
structure STXBalance where
  amount_unlocked : Nat
  amount_locked : Nat
  unlock_height : Nat
deriving DecidableEq

/-- Modelled from the spec: the lazy-unlock fold performed when a balance
snapshot is read (the snapshot code lives in the Clarity database layer,
outside the sampled sources).  Once the chain height reaches
`unlock_height` of a nonzero lock, the locked amount folds into the
unlocked amount. -/
def canonical_balance (b : STXBalance) (burn_height : Nat) : STXBalance :=
  if 0 < b.amount_locked ∧ b.unlock_height ≤ burn_height then
    ⟨b.amount_unlocked + b.amount_locked, 0, 0⟩
  else b

/-- Modelled from the spec: `snapshot.can_transfer(amount)` is true iff
`amount` is at most the unlocked balance after the lazy-unlock fold. -/
def can_transfer (b : STXBalance) (burn_height amount : Nat) : Prop :=
  amount ≤ (canonical_balance b burn_height).amount_unlocked

instance (b : STXBalance) (burn_height amount : Nat) :
    Decidable (can_transfer b burn_height amount) :=
  inferInstanceAs (Decidable (amount ≤ _))

/-- Modelled from the spec: `snapshot.has_locked_tokens()` — an active
(not yet matured) lock is present after the lazy-unlock fold. -/
def has_locked_tokens (b : STXBalance) (burn_height : Nat) : Prop :=
  0 < (canonical_balance b burn_height).amount_locked

instance (b : STXBalance) (burn_height : Nat) :
    Decidable (has_locked_tokens b burn_height) :=
  inferInstanceAs (Decidable (0 < _))

/-- The two recoverable PoX lock failures of `StacksChainState::pox_lock`. -/
inductive PoxError where
  | PoxAlreadyLocked
  | PoxInsufficientBalance
deriving DecidableEq

/-- `StacksChainState::pox_lock` from `accounts.rs`, as a transformer of the
stored balance of one principal at the current burn height.  The first
component is the returned error, if any; the second is the stored balance
after the call (unchanged when an error is returned, because the snapshot
is only saved on the success path).  The `assert!(unlock_burn_height > 0)`
and `assert!(lock_amount > 0)` preconditions are carried as hypotheses by
the theorems below.  The snapshot primitives (`has_locked_tokens`,
`can_transfer`, `lock_tokens`) are modelled from the spec. -/
def pox_lock (bal : STXBalance) (burn_height lock_amount unlock_burn_height : Nat) :
    Option PoxError × STXBalance :=
  let s := canonical_balance bal burn_height
  if 0 < s.amount_locked then (some .PoxAlreadyLocked, bal)
  else if ¬ lock_amount ≤ s.amount_unlocked then
    (some .PoxInsufficientBalance, bal)
  else
    (none, ⟨s.amount_unlocked - lock_amount, lock_amount, unlock_burn_height⟩)

/-- `StacksChainState::account_debit` from `accounts.rs`, on one principal's
stored balance.  `none` models the process abort (`panic!`) taken when the
amount exceeds the available balance; `some` carries the saved balance.
The snapshot `debit` primitive is modelled from the spec (checked
subtraction from the post-fold unlocked amount). -/
def account_debit (bal : STXBalance) (burn_height amount : Nat) :
    Option STXBalance :=
  let s := canonical_balance bal burn_height
  if amount ≤ s.amount_unlocked then
    some ⟨s.amount_unlocked - amount, s.amount_locked, s.unlock_height⟩
  else none

/-- Result value of a VM-facing STX operation: `ok true` or a Clarity
error-code value (`clarity_ecode!`). -/
inductive StxRes where
  | okTrue
  | err (code : Nat)
deriving DecidableEq

/-- The error codes of `StxErrorCodes` in `assets.rs`. -/
def StxErrorCodes.NOT_ENOUGH_BALANCE : Nat := 1

def StxErrorCodes.SENDER_IS_RECIPIENT : Nat := 2

def StxErrorCodes.NON_POSITIVE_AMOUNT : Nat := 3

def StxErrorCodes.SENDER_IS_NOT_TX_SENDER : Nat := 4

/-- `stx_transfer_consolidated` from `assets.rs`, over the map of stored
STX balances.  `sender` is `env.sender` (the authenticated tx sender).
The cost/memory accounting calls are external pass-throughs and are not
modelled; `transfer_to` (debit the sender's post-fold balance, credit the
recipient's unlocked balance, save both) is modelled from the spec.  The
source checks, in order: non-positive amount, self-transfer, sender
authentication, and only then balance sufficiency. -/
def stx_transfer_consolidated (burn_height : Nat) (sender : Option Nat)
    (bals : Nat → STXBalance) (fromp top amount : Nat) :
    StxRes × (Nat → STXBalance) :=
  if amount ≤ 0 then (.err StxErrorCodes.NON_POSITIVE_AMOUNT, bals)
  else if fromp = top then (.err StxErrorCodes.SENDER_IS_RECIPIENT, bals)
  else if some fromp ≠ sender then
    (.err StxErrorCodes.SENDER_IS_NOT_TX_SENDER, bals)
  else
    let s := canonical_balance (bals fromp) burn_height
    if ¬ amount ≤ s.amount_unlocked then
      (.err StxErrorCodes.NOT_ENOUGH_BALANCE, bals)
    else
      let s' : STXBalance :=
        ⟨s.amount_unlocked - amount, s.amount_locked, s.unlock_height⟩
      let t := bals top
      let t' : STXBalance :=
        ⟨t.amount_unlocked + amount, t.amount_locked, t.unlock_height⟩
      (.okTrue, fun p => if p = top then t' else if p = fromp then s' else bals p)

/-- Result value of a VM-facing FT/NFT operation.  `err` is a Clarity
error-code value; `arithOverflowErr` is the recoverable
`RuntimeErrorType::ArithmeticOverflow`; `supplyErr` is the error
propagated from `checked_increase_token_supply`; `abortOverflow` models the
process abort of `.expect("STX overflow")`. -/
inductive VmRes where
  | okTrue
  | err (code : Nat)
  | arithOverflowErr
  | supplyErr
  | abortOverflow
deriving DecidableEq

/-- The fungible-token ledger for one asset class: per-principal balances
(defaulting to 0 for untouched accounts) and the total-supply counter. -/
structure FtLedger where
  balances : Nat → Nat
  supply : Nat

/-- Modelled from the spec: `checked_increase_token_supply` (Clarity
database layer, outside the sampled sources) — increases the total supply,
failing when the asset's declared cap (or the u128 range, for an uncapped
asset) would be exceeded. -/
def checked_increase_token_supply (supply amount : Nat)
    (total_supply_cap : Option Nat) : Option Nat :=
  match total_supply_cap with
  | some cap => if supply + amount ≤ cap then some (supply + amount) else none
  | none =>
    if supply + amount ≤ U128_MAX then some (supply + amount) else none

/-- The semantic core of `special_transfer_token` (`ft-transfer`) from
`assets.rs`, after argument evaluation and type dispatch: checks
non-positive amount (code 3), self-transfer (code 2), balance sufficiency
(code 1), then adds to the recipient with `checked_add`, returning the
recoverable `ArithmeticOverflow` error — with no balance mutated — when
the u128 range is exceeded. -/
def ft_transfer (L : FtLedger) (fromp top amount : Nat) : VmRes × FtLedger :=
  if amount ≤ 0 then (.err 3, L)
  else if fromp = top then (.err 2, L)
  else
    let from_bal := L.balances fromp
    if from_bal < amount then (.err 1, L)
    else
      let final_from_bal := from_bal - amount
      match u128_checked_add (L.balances top) amount with
      | none => (.arithOverflowErr, L)
      | some final_to_bal =>
        (.okTrue,
          ⟨fun p =>
            if p = top then final_to_bal
            else if p = fromp then final_from_bal
            else L.balances p,
          L.supply⟩)

/-- The semantic core of `special_mint_token` (`ft-mint`) from `assets.rs`:
checks non-positive amount (code 1), performs the checked supply increase,
then adds to the recipient's balance with
`checked_add(amount).expect("STX overflow")` — a process abort
(`abortOverflow`) on u128 overflow, in contrast to `ft_transfer`. -/
def ft_mint (L : FtLedger) (total_supply_cap : Option Nat) (top amount : Nat) :
    VmRes × FtLedger :=
  if amount ≤ 0 then (.err 1, L)
  else
    match checked_increase_token_supply L.supply amount total_supply_cap with
    | none => (.supplyErr, L)
    | some new_supply =>
      match u128_checked_add (L.balances top) amount with
      | none => (.abortOverflow, L)
      | some final_to_bal =>
        (.okTrue,
          ⟨fun p => if p = top then final_to_bal else L.balances p,
          new_supply⟩)

/-- The semantic core of `special_transfer_asset` (`nft-transfer`) from
`assets.rs`, after the asset value has been type-checked: checks
self-transfer (code 2) before the owner lookup, then no-such-token
(code 3), then not-owned-by (code 1), and otherwise reassigns the owner
record.  `owners` maps an asset value to its owner; `none` is the
token-does-not-exist state. -/
def nft_transfer (owners : Nat → Option Nat) (fromp top asset : Nat) :
    VmRes × (Nat → Option Nat) :=
  if fromp = top then (.err 2, owners)
  else
    match owners asset with
    | none => (.err 3, owners)
    | some current_owner =>
      if current_owner ≠ fromp then (.err 1, owners)
      else (.okTrue, fun v => if v = asset then some top else owners v)

theorem nat_div_add_div_le (a b n : Nat) : a / n + b / n ≤ (a + b) / n := by
  rcases Nat.eq_zero_or_pos n with h | h
  · simp [h]
  · rw [Nat.le_div_iff_mul_le h]
    calc (a / n + b / n) * n = a / n * n + b / n * n := by rw [Nat.add_mul]
      _ ≤ a + b := Nat.add_le_add (Nat.div_mul_le_self a n) (Nat.div_mul_le_self b n)

theorem list_sum_div_le (C T : Nat) (l : List Nat) :
    (l.map fun c => C * c / T).sum ≤ C * l.sum / T := by
  induction l with
  | nil => simp
  | cons c l ih =>
    simp only [List.map_cons, List.sum_cons]
    calc C * c / T + (l.map fun c => C * c / T).sum
        ≤ C * c / T + C * l.sum / T := Nat.add_le_add_left ih _
      _ ≤ (C * c + C * l.sum) / T := nat_div_add_div_le _ _ _
      _ = C * (c + l.sum) / T := by rw [Nat.mul_add]

theorem sumUserBurns_go (l : List MinerPaymentSchedule) (a : Nat) :
    l.foldl (fun acc u => acc + u.burnchain_commit_burn) a = a + sumUserBurns l := by
  induction l generalizing a with
  | nil => simp [sumUserBurns]
  | cons u l ih =>
    simp only [List.foldl_cons, sumUserBurns]
    rw [ih (a + u.burnchain_commit_burn), ih (0 + u.burnchain_commit_burn)]
    omega

theorem sumUserBurns_cons (u : MinerPaymentSchedule) (l : List MinerPaymentSchedule) :
    sumUserBurns (u :: l) = u.burnchain_commit_burn + sumUserBurns l := by
  simpa [sumUserBurns] using sumUserBurns_go l u.burnchain_commit_burn

theorem sumUserBurns_append (l₁ l₂ : List MinerPaymentSchedule) :
    sumUserBurns (l₁ ++ l₂) = sumUserBurns l₁ + sumUserBurns l₂ := by
  induction l₁ with
  | nil => simp [sumUserBurns]
  | cons u l ih =>
    rw [List.cons_append, sumUserBurns_cons, sumUserBurns_cons, ih]
    omega

theorem sumUserBurns_eq_map_sum (l : List MinerPaymentSchedule) :
    sumUserBurns l = (l.map fun u => u.burnchain_commit_burn).sum := by
  induction l with
  | nil => rfl
  | cons u l ih => simp [sumUserBurns_cons, ih]

theorem userBurnSplit_cons (paddr : Nat) (u : MinerPaymentSchedule)
    (l : List MinerPaymentSchedule) (acc : Nat × Nat) :
    userBurnSplit paddr (u :: l) acc =
      userBurnSplit paddr l
        (if u.address ≠ paddr then (acc.1, acc.2 + u.burnchain_commit_burn)
         else (u.burnchain_commit_burn, acc.2)) := rfl

theorem userBurnSplit_append (paddr : Nat) (l₁ l₂ : List MinerPaymentSchedule)
    (acc : Nat × Nat) :
    userBurnSplit paddr (l₁ ++ l₂) acc =
      userBurnSplit paddr l₂ (userBurnSplit paddr l₁ acc) :=
  List.foldl_append _ _ _ _

theorem userBurnSplit_no_match (paddr : Nat) (l : List MinerPaymentSchedule)
    (t o : Nat) (h : ∀ u ∈ l, u.address ≠ paddr) :
    userBurnSplit paddr l (t, o) = (t, o + sumUserBurns l) := by
  induction l generalizing o with
  | nil => simp [userBurnSplit, sumUserBurns]
  | cons u l ih =>
    have hu : u.address ≠ paddr := h u (List.mem_cons_self u l)
    rw [userBurnSplit_cons, if_pos hu]
    rw [ih (o + u.burnchain_commit_burn) fun v hv => h v (List.mem_cons_of_mem u hv)]
    rw [sumUserBurns_cons]
    congr 1
    omega

theorem userBurnSplit_found (paddr : Nat) (l₁ l₂ : List MinerPaymentSchedule)
    (u : MinerPaymentSchedule) (t o : Nat)
    (h1 : ∀ v ∈ l₁, v.address ≠ paddr) (hu : u.address = paddr)
    (h2 : ∀ v ∈ l₂, v.address ≠ paddr) :
    userBurnSplit paddr (l₁ ++ u :: l₂) (t, o) =
      (u.burnchain_commit_burn, o + sumUserBurns l₁ + sumUserBurns l₂) := by
  rw [userBurnSplit_append, userBurnSplit_no_match paddr l₁ t o h1,
    userBurnSplit_cons, if_neg (by simp [hu])]
  exact userBurnSplit_no_match paddr l₂ _ _ h2

theorem miner_share (frac : Nat) (mainnet : Bool) (miner : MinerPaymentSchedule)
    (users : List MinerPaymentSchedule) :
    calculate_miner_reward frac mainnet miner miner users none =
      ⟨miner.address,
       miner.coinbase * miner.burnchain_commit_burn /
         (sumUserBurns users + miner.burnchain_commit_burn),
       0, 0, 0, miner.vtxindex⟩ := by
  simp [calculate_miner_reward]

theorem user_share (frac : Nat) (mainnet : Bool)
    (miner u : MinerPaymentSchedule) (users : List MinerPaymentSchedule)
    (hu : u ∈ users)
    (hndm : miner.address ∉ users.map MinerPaymentSchedule.address)
    (hnd : (users.map MinerPaymentSchedule.address).Nodup) :
    calculate_miner_reward frac mainnet u miner users none =
      ⟨u.address,
       u.coinbase * u.burnchain_commit_burn /
         (miner.burnchain_commit_burn + sumUserBurns users),
       0, 0, 0, miner.vtxindex⟩ := by
  have hum : u.address ≠ miner.address := by
    intro h
    exact hndm (h ▸ List.mem_map_of_mem _ hu)
  obtain ⟨l₁, l₂, rfl⟩ := List.append_of_mem hu
  have hmap : (l₁.map MinerPaymentSchedule.address).Nodup ∧
      (u.address :: l₂.map MinerPaymentSchedule.address).Nodup ∧
      (l₁.map MinerPaymentSchedule.address).Disjoint
        (u.address :: l₂.map MinerPaymentSchedule.address) := by
    rw [← List.nodup_append]
    simpa using hnd
  have h1 : ∀ v ∈ l₁, v.address ≠ u.address := by
    intro v hv he
    exact hmap.2.2 (he ▸ List.mem_map_of_mem _ hv) (List.mem_cons_self _ _)
  have h2 : ∀ v ∈ l₂, v.address ≠ u.address := by
    intro v hv he
    have : u.address ∈ l₂.map MinerPaymentSchedule.address :=
      he ▸ List.mem_map_of_mem _ hv
    exact (List.nodup_cons.mp hmap.2.1).1 this
  have hsplit := userBurnSplit_found u.address l₁ l₂ u 0
    miner.burnchain_commit_burn h1 rfl h2
  have hden : miner.burnchain_commit_burn + sumUserBurns l₁ + sumUserBurns l₂ +
      u.burnchain_commit_burn =
      miner.burnchain_commit_burn + sumUserBurns (l₁ ++ u :: l₂) := by
    rw [sumUserBurns_append, sumUserBurns_cons]
    omega
  simp only [calculate_miner_reward, if_neg hum, hsplit]
  rw [hden]

/-- C2 (amended): with pairwise-distinct participant addresses and a
positive total commit burn, `calculate_miner_reward` with no poison report
returns, for the miner and for every burn-supporter, the coinbase share
`floor(coinbase * commit(p) / (miner commit + sum of user commits))`. -/
theorem C2_share_amended (frac : Nat) (mainnet : Bool)
    (miner p : MinerPaymentSchedule) (users : List MinerPaymentSchedule)
    (hnd : (miner.address :: users.map MinerPaymentSchedule.address).Nodup)
    (hT : 0 < miner.burnchain_commit_burn + sumUserBurns users)
    (hp : p = miner ∨ p ∈ users) :
    (calculate_miner_reward frac mainnet p miner users none).coinbase =
      p.coinbase * p.burnchain_commit_burn /
        (miner.burnchain_commit_burn + sumUserBurns users) := by
  rcases List.nodup_cons.mp hnd with ⟨hndm, hndu⟩
  rcases hp with rfl | hp
  · rw [miner_share]
    simp only
    rw [Nat.add_comm]
  · rw [user_share frac mainnet miner p users hp hndm hndu]

/-- C1 (amended): with pairwise-distinct participant addresses, a positive
total commit burn, and every row carrying the block's declared coinbase,
the coinbase shares computed by `calculate_miner_reward` for the miner and
all burn-supporters sum to at most the declared coinbase. -/
theorem C1_conservation_amended (frac : Nat) (mainnet : Bool)
    (miner : MinerPaymentSchedule) (users : List MinerPaymentSchedule)
    (hnd : (miner.address :: users.map MinerPaymentSchedule.address).Nodup)
    (hT : 0 < miner.burnchain_commit_burn + sumUserBurns users)
    (hcoin : ∀ u ∈ users, u.coinbase = miner.coinbase) :
    (calculate_miner_reward frac mainnet miner miner users none).coinbase +
      (users.map fun u =>
        (calculate_miner_reward frac mainnet u miner users none).coinbase).sum
      ≤ miner.coinbase := by
  rcases List.nodup_cons.mp hnd with ⟨hndm, hndu⟩
  have hmap : (users.map fun u =>
      (calculate_miner_reward frac mainnet u miner users none).coinbase) =
      users.map fun u =>
        miner.coinbase * u.burnchain_commit_burn /
          (miner.burnchain_commit_burn + sumUserBurns users) := by
    refine List.map_congr_left fun u hu => ?_
    rw [user_share frac mainnet miner u users hu hndm hndu]
    simp only
    rw [hcoin u hu]
  rw [miner_share, hmap]
  simp only
  rw [Nat.add_comm (sumUserBurns users) miner.burnchain_commit_burn]
  have hmm : (users.map fun u =>
      miner.coinbase * u.burnchain_commit_burn /
        (miner.burnchain_commit_burn + sumUserBurns users)) =
      (users.map fun u => u.burnchain_commit_burn).map fun c =>
        miner.coinbase * c /
          (miner.burnchain_commit_burn + sumUserBurns users) := by
    rw [List.map_map]
    rfl
  rw [hmm]
  calc miner.coinbase * miner.burnchain_commit_burn /
        (miner.burnchain_commit_burn + sumUserBurns users) +
        ((users.map fun u => u.burnchain_commit_burn).map fun c =>
          miner.coinbase * c /
            (miner.burnchain_commit_burn + sumUserBurns users)).sum
      ≤ miner.coinbase * miner.burnchain_commit_burn /
          (miner.burnchain_commit_burn + sumUserBurns users) +
        miner.coinbase * (users.map fun u => u.burnchain_commit_burn).sum /
          (miner.burnchain_commit_burn + sumUserBurns users) :=
        Nat.add_le_add_left (list_sum_div_le _ _ _) _
    _ ≤ (miner.coinbase * miner.burnchain_commit_burn +
          miner.coinbase * (users.map fun u => u.burnchain_commit_burn).sum) /
          (miner.burnchain_commit_burn + sumUserBurns users) :=
        nat_div_add_div_le _ _ _
    _ = miner.coinbase * (miner.burnchain_commit_burn + sumUserBurns users) /
          (miner.burnchain_commit_burn + sumUserBurns users) := by
        rw [← sumUserBurns_eq_map_sum, ← Nat.mul_add]
    _ = miner.coinbase := Nat.mul_div_left _ hT

/-- C1 counterexample: the claim "equality only in degenerate
single-participant cases; never exceeds C" fails on the code.  First, at a
miner with commit 250, one supporter with commit 750 and coinbase 500 —
two participants — the shares sum to exactly the coinbase.  Second, when a
supporter shares the miner's address (commit burns 1000 and 1, coinbase
1000), the computed shares sum to 1499, strictly exceeding the declared
coinbase 1000. -/
theorem C1_counterexample :
    ((calculate_miner_reward 5 false
        ⟨3, 10, 11, 12, 13, 500, 0, 0, 0, 250, 1000, 0, true, 1, 0⟩
        ⟨3, 10, 11, 12, 13, 500, 0, 0, 0, 250, 1000, 0, true, 1, 0⟩
        [⟨4, 10, 11, 12, 13, 500, 0, 0, 0, 750, 1000, 0, false, 1, 1⟩]
        none).coinbase +
      (calculate_miner_reward 5 false
        ⟨4, 10, 11, 12, 13, 500, 0, 0, 0, 750, 1000, 0, false, 1, 1⟩
        ⟨3, 10, 11, 12, 13, 500, 0, 0, 0, 250, 1000, 0, true, 1, 0⟩
        [⟨4, 10, 11, 12, 13, 500, 0, 0, 0, 750, 1000, 0, false, 1, 1⟩]
        none).coinbase = 500)
    ∧ ((calculate_miner_reward 5 false
        ⟨7, 10, 11, 12, 13, 1000, 0, 0, 0, 1000, 1000, 0, true, 1, 0⟩
        ⟨7, 10, 11, 12, 13, 1000, 0, 0, 0, 1000, 1000, 0, true, 1, 0⟩
        [⟨7, 10, 11, 12, 13, 1000, 0, 0, 0, 1, 1000, 0, false, 1, 1⟩]
        none).coinbase +
      (calculate_miner_reward 5 false
        ⟨7, 10, 11, 12, 13, 1000, 0, 0, 0, 1, 1000, 0, false, 1, 1⟩
        ⟨7, 10, 11, 12, 13, 1000, 0, 0, 0, 1000, 1000, 0, true, 1, 0⟩
        [⟨7, 10, 11, 12, 13, 1000, 0, 0, 0, 1, 1000, 0, false, 1, 1⟩]
        none).coinbase = 1499) := by
  decide

/-- Witness for the amended C1 theorem at the spec's own scenario: miner
commit 250, one supporter commit 750, coinbase 500. -/
theorem C1_conservation_amended_witness :
    (calculate_miner_reward 5 false
        ⟨3, 10, 11, 12, 13, 500, 0, 0, 0, 250, 1000, 0, true, 1, 0⟩
        ⟨3, 10, 11, 12, 13, 500, 0, 0, 0, 250, 1000, 0, true, 1, 0⟩
        [⟨4, 10, 11, 12, 13, 500, 0, 0, 0, 750, 1000, 0, false, 1, 1⟩]
        none).coinbase +
      ([⟨4, 10, 11, 12, 13, 500, 0, 0, 0, 750, 1000, 0, false, 1, 1⟩].map
        fun u => (calculate_miner_reward 5 false u
          ⟨3, 10, 11, 12, 13, 500, 0, 0, 0, 250, 1000, 0, true, 1, 0⟩
          [⟨4, 10, 11, 12, 13, 500, 0, 0, 0, 750, 1000, 0, false, 1, 1⟩]
          none).coinbase).sum
      ≤ 500 :=
  C1_conservation_amended 5 false _ _ (by decide) (by decide) (by decide)

/-- C2 counterexample: when a burn-supporter shares the miner's address
(miner commit 1000, supporter commit 1, coinbase 500), the code computes
the supporter's coinbase share as 250 while the claim's formula
`floor(coinbase * commit(p) / total)` gives `floor(500 * 1 / 1001) = 0`. -/
theorem C2_counterexample :
    (calculate_miner_reward 5 false
        ⟨7, 10, 11, 12, 13, 500, 0, 0, 0, 1, 1000, 0, false, 1, 1⟩
        ⟨7, 10, 11, 12, 13, 500, 0, 0, 0, 1000, 1000, 0, true, 1, 0⟩
        [⟨7, 10, 11, 12, 13, 500, 0, 0, 0, 1, 1000, 0, false, 1, 1⟩]
        none).coinbase = 250
    ∧ (500 * 1 /
        ((1000 : Nat) +
          sumUserBurns
            [⟨7, 10, 11, 12, 13, 500, 0, 0, 0, 1, 1000, 0, false, 1, 1⟩]) = 0)
    ∧ (250 : Nat) ≠ 0 := by
  decide

/-- Witness for the amended C2 theorem: the supporter of the spec's
scenario (miner commit 250, supporter commit 750, coinbase 500) receives
`floor(500 * 750 / 1000)`. -/
theorem C2_share_amended_witness :
    (calculate_miner_reward 5 false
        ⟨4, 10, 11, 12, 13, 500, 0, 0, 0, 750, 1000, 0, false, 1, 1⟩
        ⟨3, 10, 11, 12, 13, 500, 0, 0, 0, 250, 1000, 0, true, 1, 0⟩
        [⟨4, 10, 11, 12, 13, 500, 0, 0, 0, 750, 1000, 0, false, 1, 1⟩]
        none).coinbase =
      500 * 750 /
        ((250 : Nat) +
          sumUserBurns
            [⟨4, 10, 11, 12, 13, 500, 0, 0, 0, 750, 1000, 0, false, 1, 1⟩]) :=
  C2_share_amended 5 false _ _ _ (by decide) (by decide) (Or.inr (by decide))

/-- C3 counterexample: under a poison report, a burn-supporter sharing
the miner's address (miner commit 1000, supporter commit 1, coinbase
1000, commission fraction 5) is routed through the miner branch: its
reward record pays the reporter a commission of its share (25) instead of
sending its share to the canonical burn address, falsifying the claim's
"every burn-supporter's share is sent to the burn address". -/
theorem C3_counterexample :
    (calculate_miner_reward 5 false
        ⟨7, 10, 11, 12, 13, 1000, 0, 0, 0, 1, 1000, 0, false, 1, 1⟩
        ⟨7, 10, 11, 12, 13, 1000, 0, 0, 0, 1000, 1000, 0, true, 1, 0⟩
        [⟨7, 10, 11, 12, 13, 1000, 0, 0, 0, 1, 1000, 0, false, 1, 1⟩]
        (some 9)).address = 9
    ∧ (9 : Nat) ≠ burn_address false
    ∧ (9 : Nat) ≠ burn_address true
    ∧ (calculate_miner_reward 5 false
        ⟨7, 10, 11, 12, 13, 1000, 0, 0, 0, 1, 1000, 0, false, 1, 1⟩
        ⟨7, 10, 11, 12, 13, 1000, 0, 0, 0, 1000, 1000, 0, true, 1, 0⟩
        [⟨7, 10, 11, 12, 13, 1000, 0, 0, 0, 1, 1000, 0, false, 1, 1⟩]
        (some 9)).coinbase = 25 := by
  decide

/-- C3 (amended): with a poison-microblock report, every participant whose
address equals the miner's — the miner itself, and any aliased
burn-supporter — has its reward paid to the reporter, equal to the
commission fraction of its pre-penalty proportional share; every
participant whose address differs from the miner's has its (unchanged)
share paid to the canonical burn address instead of to itself; no reward
record carries the remainder of a commissioned share. -/
theorem C3_poison_redirection_amended (frac : Nat) (mainnet : Bool)
    (miner p : MinerPaymentSchedule) (users : List MinerPaymentSchedule)
    (reporter : Nat) :
    (p.address = miner.address →
      (calculate_miner_reward frac mainnet p miner users
        (some reporter)).address = reporter
      ∧ (calculate_miner_reward frac mainnet p miner users
          (some reporter)).coinbase =
        poison_microblock_commission frac
          ((calculate_miner_reward frac mainnet p miner users
            none).coinbase))
    ∧ (p.address ≠ miner.address →
        (calculate_miner_reward frac mainnet p miner users
          (some reporter)).address = burn_address mainnet
        ∧ (calculate_miner_reward frac mainnet p miner users
            (some reporter)).coinbase =
          (calculate_miner_reward frac mainnet p miner users
            none).coinbase) := by
  refine ⟨fun hp => ⟨by simp [calculate_miner_reward, hp],
      by simp [calculate_miner_reward, hp]⟩,
    fun hp => ⟨by simp [calculate_miner_reward, hp],
      by simp [calculate_miner_reward, hp]⟩⟩

/-- Witness for the amended C3 theorem at the spec's scenario: miner
commit 250, supporter commit 750, coinbase 500, reporter 9; the miner's
reward is the reporter's commission of its pre-penalty share (125), and
the (distinct-address) supporter's share goes to the burn address. -/
theorem C3_poison_redirection_amended_witness :
    ((calculate_miner_reward 5 false
        ⟨3, 10, 11, 12, 13, 500, 0, 0, 0, 250, 1000, 0, true, 1, 0⟩
        ⟨3, 10, 11, 12, 13, 500, 0, 0, 0, 250, 1000, 0, true, 1, 0⟩
        [⟨4, 10, 11, 12, 13, 500, 0, 0, 0, 750, 1000, 0, false, 1, 1⟩]
        (some 9)).address = 9)
    ∧ (calculate_miner_reward 5 false
        ⟨3, 10, 11, 12, 13, 500, 0, 0, 0, 250, 1000, 0, true, 1, 0⟩
        ⟨3, 10, 11, 12, 13, 500, 0, 0, 0, 250, 1000, 0, true, 1, 0⟩
        [⟨4, 10, 11, 12, 13, 500, 0, 0, 0, 750, 1000, 0, false, 1, 1⟩]
        (some 9)).coinbase =
        poison_microblock_commission 5
          ((calculate_miner_reward 5 false
            ⟨3, 10, 11, 12, 13, 500, 0, 0, 0, 250, 1000, 0, true, 1, 0⟩
            ⟨3, 10, 11, 12, 13, 500, 0, 0, 0, 250, 1000, 0, true, 1, 0⟩
            [⟨4, 10, 11, 12, 13, 500, 0, 0, 0, 750, 1000, 0, false, 1, 1⟩]
            none).coinbase)
    ∧ (calculate_miner_reward 5 false
        ⟨4, 10, 11, 12, 13, 500, 0, 0, 0, 750, 1000, 0, false, 1, 1⟩
        ⟨3, 10, 11, 12, 13, 500, 0, 0, 0, 250, 1000, 0, true, 1, 0⟩
        [⟨4, 10, 11, 12, 13, 500, 0, 0, 0, 750, 1000, 0, false, 1, 1⟩]
        (some 9)).address = burn_address false := by
  have hm := (C3_poison_redirection_amended 5 false
    ⟨3, 10, 11, 12, 13, 500, 0, 0, 0, 250, 1000, 0, true, 1, 0⟩
    ⟨3, 10, 11, 12, 13, 500, 0, 0, 0, 250, 1000, 0, true, 1, 0⟩
    [⟨4, 10, 11, 12, 13, 500, 0, 0, 0, 750, 1000, 0, false, 1, 1⟩] 9).1
    (by decide)
  have hu := (C3_poison_redirection_amended 5 false
    ⟨3, 10, 11, 12, 13, 500, 0, 0, 0, 250, 1000, 0, true, 1, 0⟩
    ⟨4, 10, 11, 12, 13, 500, 0, 0, 0, 750, 1000, 0, false, 1, 1⟩
    [⟨4, 10, 11, 12, 13, 500, 0, 0, 0, 750, 1000, 0, false, 1, 1⟩] 9).2
    (by decide)
  exact ⟨hm.1, hm.2, hu.1⟩


/-- C9: every reward built by `calculate_miner_reward` carries the miner
row's `vtxindex`, never the participant's own; consequently every reward
resolved by `find_mature_miner_rewards` — the miner's and every
burn-supporter's — has `vtxindex = 0` (the miner row's asserted index). -/
theorem C9_vtxindex (frac : Nat) (mainnet : Bool)
    (p miner : MinerPaymentSchedule) (users : List MinerPaymentSchedule)
    (poison : Option Nat) :
    (calculate_miner_reward frac mainnet p miner users poison).vtxindex =
      miner.vtxindex
    ∧ ∀ maturity tip : Nat, ∀ poison2 : Option Nat,
        ∀ mr : MinerReward, ∀ urs : List MinerReward, ∀ info : MinerRewardInfo,
        find_mature_miner_rewards maturity mainnet frac tip poison2
          (miner :: users) = .ok (some (mr, urs, info)) →
        mr.vtxindex = 0 ∧ ∀ r ∈ urs, r.vtxindex = 0 := by
  constructor
  · rfl
  · intro maturity tip poison2 mr urs info h
    by_cases h1 : tip ≤ maturity
    · simp [find_mature_miner_rewards, h1] at h
    · by_cases h2 : miner.vtxindex = 0 ∧ miner.miner
      · simp only [find_mature_miner_rewards, if_neg h1, if_pos h2] at h
        obtain ⟨hmr, hurs, _⟩ := by
          simpa using h
        constructor
        · rw [← hmr]
          exact h2.1
        · intro r hr
          rw [← hurs] at hr
          obtain ⟨u, _, rfl⟩ := List.mem_map.mp hr
          exact h2.1
      · simp [find_mature_miner_rewards, h1, h2] at h

/-- Witness for C9: a concrete matured run (maturity 1, tip 2, one miner
row with vtxindex 0) whose resolved miner reward has vtxindex 0. -/
theorem C9_vtxindex_witness :
    ((⟨3, 500, 0, 0, 0, 0⟩ : MinerReward).vtxindex = 0)
    ∧ ∀ r ∈ ([] : List MinerReward), r.vtxindex = 0 :=
  (C9_vtxindex 5 false
    ⟨3, 10, 11, 12, 13, 500, 0, 0, 0, 250, 1000, 0, true, 1, 0⟩
    ⟨3, 10, 11, 12, 13, 500, 0, 0, 0, 250, 1000, 0, true, 1, 0⟩
    [] none).2 1 2 none ⟨3, 500, 0, 0, 0, 0⟩ [] ⟨10, 11⟩ (by decide)

/-- C5 (amended): reward resolution returns no reward (and no error) at or
below the maturity threshold, the scheduled-rewards lookup returns the
empty result below it, and a payout is produced only when
`tip > MATURITY`, i.e. when `tip = reward_height + MATURITY` for
`reward_height = tip - MATURITY ≥ 1` — not when
`tip > reward_height + MATURITY`. -/
theorem C5_maturity_amended (maturity : Nat) (mainnet : Bool)
    (frac tip : Nat) (poison : Option Nat)
    (miners : List MinerPaymentSchedule) :
    (tip ≤ maturity →
      find_mature_miner_rewards maturity mainnet frac tip poison miners =
        .ok none)
    ∧ (tip < maturity → get_scheduled_block_rewards_height maturity tip = none)
    ∧ ∀ out, find_mature_miner_rewards maturity mainnet frac tip poison
        miners = .ok (some out) →
        maturity < tip ∧ tip = (tip - maturity) + maturity ∧
          1 ≤ tip - maturity := by
  refine ⟨fun h => by simp [find_mature_miner_rewards, h],
    fun h => by simp [get_scheduled_block_rewards_height, h],
    fun out h => ?_⟩
  by_cases h1 : tip ≤ maturity
  · simp [find_mature_miner_rewards, h1] at h
  · refine ⟨by omega, by omega, by omega⟩

/-- C5 counterexample: with maturity constant 100 and tip height 101, the
resolver produces a full payout for reward height 1, although
`tip > reward_height + MATURITY` is false there (101 = 1 + 100); payouts
happen exactly at equality, so the claim's strict bound never holds at a
payout. -/
theorem C5_counterexample :
    find_mature_miner_rewards 100 false 5 101 none
        [⟨3, 10, 11, 12, 13, 500, 0, 0, 0, 250, 1000, 0, true, 1, 0⟩] =
      .ok (some (⟨3, 500, 0, 0, 0, 0⟩, [], ⟨10, 11⟩))
    ∧ ¬ (101 : Nat) > (101 - 100) + 100 := by
  decide

/-- Witness for the amended C5 theorem: below the threshold (tip 3,
maturity 5) the resolver returns no reward, and at the concrete matured
run (maturity 100, tip 101) the payout satisfies the amended bound. -/
theorem C5_maturity_amended_witness :
    find_mature_miner_rewards 5 false 7 3 none [] = .ok none
    ∧ (100 : Nat) < 101 ∧ (101 : Nat) = (101 - 100) + 100 ∧
      1 ≤ (101 : Nat) - 100 := by
  have h1 := (C5_maturity_amended 5 false 7 3 none []).1 (by decide)
  have h2 := (C5_maturity_amended 100 false 5 101 none
      [⟨3, 10, 11, 12, 13, 500, 0, 0, 0, 250, 1000, 0, true, 1, 0⟩]).2.2
      (⟨3, 500, 0, 0, 0, 0⟩, [], ⟨10, 11⟩) (by decide)
  exact ⟨h1, h2⟩

/-- C4 counterexample: a call with both an insufficient balance (0 < 10)
and a wrong sender returns `SENDER_IS_NOT_TX_SENDER` (4), not
`NOT_ENOUGH_BALANCE` (1) as the claim's ordering
(balance before authentication) requires. -/
theorem C4_counterexample :
    (stx_transfer_consolidated 0 (some 5) (fun _ => ⟨0, 0, 0⟩) 1 2 10).1 =
      .err StxErrorCodes.SENDER_IS_NOT_TX_SENDER
    ∧ StxRes.err StxErrorCodes.SENDER_IS_NOT_TX_SENDER ≠
        .err StxErrorCodes.NOT_ENOUGH_BALANCE := by
  exact ⟨rfl, by decide⟩

/-- C4 (amended): the stx-transfer checks are ordered amount-positivity,
then self-transfer, then authentication, then balance sufficiency; in
particular a wrong sender wins over an insufficient balance, and every
failing check returns its code with the balances untouched. -/
theorem C4_order_amended (burn_height : Nat) (sender : Option Nat)
    (bals : Nat → STXBalance) (fromp top amount : Nat) :
    (amount = 0 →
      stx_transfer_consolidated burn_height sender bals fromp top amount =
        (.err StxErrorCodes.NON_POSITIVE_AMOUNT, bals))
    ∧ (0 < amount → fromp = top →
        stx_transfer_consolidated burn_height sender bals fromp top amount =
          (.err StxErrorCodes.SENDER_IS_RECIPIENT, bals))
    ∧ (0 < amount → fromp ≠ top → some fromp ≠ sender →
        stx_transfer_consolidated burn_height sender bals fromp top amount =
          (.err StxErrorCodes.SENDER_IS_NOT_TX_SENDER, bals))
    ∧ (0 < amount → fromp ≠ top → some fromp = sender →
        ¬ can_transfer (bals fromp) burn_height amount →
        stx_transfer_consolidated burn_height sender bals fromp top amount =
          (.err StxErrorCodes.NOT_ENOUGH_BALANCE, bals)) := by
  refine ⟨fun h0 => by simp [stx_transfer_consolidated, h0],
    fun h0 hft => by
      have h0' : ¬ amount ≤ 0 := by omega
      simp [stx_transfer_consolidated, h0', hft],
    fun h0 hft hs => by
      have h0' : ¬ amount ≤ 0 := by omega
      simp [stx_transfer_consolidated, h0', hft, hs],
    fun h0 hft hs hc => by
      have h0' : ¬ amount ≤ 0 := by omega
      simp only [can_transfer] at hc
      simp [stx_transfer_consolidated, h0', hft, hs, hc]⟩

/-- Witness for the amended C4 theorem: wrong sender with insufficient
balance yields code 4, and right sender with insufficient balance yields
code 1. -/
theorem C4_order_amended_witness :
    stx_transfer_consolidated 0 (some 5) (fun _ => ⟨3, 0, 0⟩) 1 2 10 =
      (.err StxErrorCodes.SENDER_IS_NOT_TX_SENDER, fun _ => ⟨3, 0, 0⟩)
    ∧ stx_transfer_consolidated 0 (some 1) (fun _ => ⟨3, 0, 0⟩) 1 2 10 =
        (.err StxErrorCodes.NOT_ENOUGH_BALANCE, fun _ => ⟨3, 0, 0⟩) := by
  have h4 := (C4_order_amended 0 (some 5) (fun _ => ⟨3, 0, 0⟩) 1 2 10).2.2.1
    (by decide) (by decide) (by decide)
  have h1 := (C4_order_amended 0 (some 1) (fun _ => ⟨3, 0, 0⟩) 1 2 10).2.2.2
    (by decide) (by decide) rfl (by decide)
  exact ⟨h4, h1⟩

/-- C6: for a positive amount and unlock height, `pox_lock` fails with
`PoxAlreadyLocked` (balance unchanged) when an active lock is present,
fails with `PoxInsufficientBalance` (balance unchanged) when the amount
exceeds the transferable post-fold balance, and otherwise moves the amount
from unlocked to locked and sets the unlock height. -/
theorem C6_pox_lock (bal : STXBalance)
    (burn_height lock_amount unlock_burn_height : Nat)
    (_hamt : 0 < lock_amount) (_hh : 0 < unlock_burn_height) :
    (has_locked_tokens bal burn_height →
      pox_lock bal burn_height lock_amount unlock_burn_height =
        (some .PoxAlreadyLocked, bal))
    ∧ (¬ has_locked_tokens bal burn_height →
        ¬ can_transfer bal burn_height lock_amount →
        pox_lock bal burn_height lock_amount unlock_burn_height =
          (some .PoxInsufficientBalance, bal))
    ∧ (¬ has_locked_tokens bal burn_height →
        can_transfer bal burn_height lock_amount →
        pox_lock bal burn_height lock_amount unlock_burn_height =
          (none,
            ⟨(canonical_balance bal burn_height).amount_unlocked - lock_amount,
             lock_amount, unlock_burn_height⟩)) := by
  refine ⟨fun hl => by
      simp only [has_locked_tokens] at hl
      simp [pox_lock, hl],
    fun hl hc => by
      simp only [has_locked_tokens] at hl
      simp only [can_transfer] at hc
      simp [pox_lock, hl, hc],
    fun hl hc => by
      simp only [has_locked_tokens] at hl
      simp only [can_transfer] at hc
      simp [pox_lock, hl, hc]⟩

/-- Witness for C6: an account with an active lock is refused with
`PoxAlreadyLocked` and unchanged balance; an unlocked account with
insufficient funds is refused with `PoxInsufficientBalance`; a sufficient
unlocked account gets the lock applied. -/
theorem C6_pox_lock_witness :
    pox_lock ⟨100, 50, 10⟩ 0 20 99 = (some .PoxAlreadyLocked, ⟨100, 50, 10⟩)
    ∧ pox_lock ⟨10, 0, 0⟩ 0 20 99 =
        (some .PoxInsufficientBalance, ⟨10, 0, 0⟩)
    ∧ pox_lock ⟨100, 0, 0⟩ 0 20 99 = (none, ⟨80, 20, 99⟩) := by
  have h1 := (C6_pox_lock ⟨100, 50, 10⟩ 0 20 99 (by decide) (by decide)).1
    (by decide)
  have h2 := (C6_pox_lock ⟨10, 0, 0⟩ 0 20 99 (by decide) (by decide)).2.1
    (by decide) (by decide)
  have h3 := (C6_pox_lock ⟨100, 0, 0⟩ 0 20 99 (by decide) (by decide)).2.2
    (by decide) (by decide)
  exact ⟨h1, h2, by simpa using h3⟩

/-- C7: with a positive amount (and a type-admitted NFT value), a
self-transfer fails with code 2 on the stx, ft and nft paths alike,
whatever the balances or ownership records, and leaves them untouched. -/
theorem C7_self_transfer (burn_height : Nat) (sender : Option Nat)
    (bals : Nat → STXBalance) (L : FtLedger) (owners : Nat → Option Nat)
    (p amount asset : Nat) (h : 0 < amount) :
    stx_transfer_consolidated burn_height sender bals p p amount =
      (.err StxErrorCodes.SENDER_IS_RECIPIENT, bals)
    ∧ ft_transfer L p p amount = (.err 2, L)
    ∧ nft_transfer owners p p asset = (.err 2, owners) := by
  have h0 : ¬ amount ≤ 0 := by omega
  exact ⟨by simp [stx_transfer_consolidated, h0],
    by simp [ft_transfer, h0],
    by simp [nft_transfer]⟩

/-- Witness for C7: a concrete self-transfer of amount 3 by principal 4
fails with code 2 on all three paths. -/
theorem C7_self_transfer_witness :
    stx_transfer_consolidated 0 none (fun _ => ⟨9, 0, 0⟩) 4 4 3 =
      (.err StxErrorCodes.SENDER_IS_RECIPIENT, fun _ => ⟨9, 0, 0⟩)
    ∧ ft_transfer ⟨fun _ => 9, 9⟩ 4 4 3 = (.err 2, ⟨fun _ => 9, 9⟩)
    ∧ nft_transfer (fun _ => none) 4 4 6 = (.err 2, fun _ => none) :=
  C7_self_transfer 0 none (fun _ => ⟨9, 0, 0⟩) ⟨fun _ => 9, 9⟩
    (fun _ => none) 4 3 6 (by decide)

/-- C8: `account_debit` aborts the process exactly when the amount exceeds
the post-fold available balance (`can_transfer` false), and otherwise
debits the unlocked amount and saves the snapshot. -/
theorem C8_account_debit (bal : STXBalance) (burn_height amount : Nat) :
    (¬ can_transfer bal burn_height amount →
      account_debit bal burn_height amount = none)
    ∧ (can_transfer bal burn_height amount →
        account_debit bal burn_height amount =
          some ⟨(canonical_balance bal burn_height).amount_unlocked - amount,
            (canonical_balance bal burn_height).amount_locked,
            (canonical_balance bal burn_height).unlock_height⟩) := by
  refine ⟨fun hc => by
      simp only [can_transfer] at hc
      simp [account_debit, hc],
    fun hc => by
      simp only [can_transfer] at hc
      simp [account_debit, hc]⟩

/-- Witness for C8: debiting 5 from an available balance of 3 aborts;
debiting 5 from an available balance of 7 succeeds and saves 2. -/
theorem C8_account_debit_witness :
    account_debit ⟨3, 0, 0⟩ 0 5 = none
    ∧ account_debit ⟨7, 0, 0⟩ 0 5 = some ⟨2, 0, 0⟩ := by
  have h1 := (C8_account_debit ⟨3, 0, 0⟩ 0 5).1 (by decide)
  have h2 := (C8_account_debit ⟨7, 0, 0⟩ 0 5).2 (by decide)
  exact ⟨h1, by simpa using h2⟩

/-- C10: when crediting the recipient would overflow u128, `ft_transfer`
returns the recoverable `ArithmeticOverflow` error with both balances
untouched, while `ft_mint` (its supply increase having succeeded) aborts
the process on the same overflow. -/
theorem C10_ft_overflow (L : FtLedger) (total_supply_cap : Option Nat)
    (fromp top amount : Nat) (hpos : 0 < amount) (hne : fromp ≠ top)
    (hbal : amount ≤ L.balances fromp)
    (hov : U128_MAX < L.balances top + amount) :
    ft_transfer L fromp top amount = (.arithOverflowErr, L)
    ∧ ((checked_increase_token_supply L.supply amount
          total_supply_cap).isSome = true →
        ft_mint L total_supply_cap top amount = (.abortOverflow, L)) := by
  have h0 : ¬ amount ≤ 0 := by omega
  have hbal' : ¬ L.balances fromp < amount := by omega
  have hadd : u128_checked_add (L.balances top) amount = none := by
    simp [u128_checked_add]
    omega
  constructor
  · simp [ft_transfer, h0, hne, hbal', hadd]
  · intro hsup
    obtain ⟨s', hs'⟩ := Option.isSome_iff_exists.mp hsup
    simp [ft_mint, h0, hs', hadd]

/-- Witness for C10: with the recipient's balance at the u128 ceiling,
transferring 5 more returns the recoverable overflow error and minting 5
more aborts. -/
theorem C10_ft_overflow_witness :
    ft_transfer ⟨fun p => if p = 1 then 5 else U128_MAX, 0⟩ 1 2 5 =
      (.arithOverflowErr, ⟨fun p => if p = 1 then 5 else U128_MAX, 0⟩)
    ∧ ft_mint ⟨fun p => if p = 1 then 5 else U128_MAX, 0⟩ none 2 5 =
        (.abortOverflow, ⟨fun p => if p = 1 then 5 else U128_MAX, 0⟩) := by
  have h := C10_ft_overflow ⟨fun p => if p = 1 then 5 else U128_MAX, 0⟩
    none 1 2 5 (by decide) (by decide) (by decide) (by decide)
  exact ⟨h.1, h.2 (by decide)⟩
